import Mathlib

/-!
Verification development for the esa-forecast-manager filtered-data pipeline.

The definitions below are shallow embeddings of the TypeScript source:
  * the client-side filter evaluator `filterForecastsClientSide`
    (hooks/useFilteredData, src/unnamed/part_003),
  * the server-side query path `getAdvancedForecasts` / `buildDynamicQuery`
    (src/services/supabaseFilterApi.ts),
  * the query fingerprint `generateQueryHash` (JSON.stringify with a sorted
    key-array replacer),
  * the module-level result cache (`cleanCache` plus `Map.set`),
  * the orchestrator `executeFiltering` (split at its `await` boundary into a
    synchronous prelude and a resolution continuation),
  * the performance monitor's `endFilterMeasure` / `addAlert`
    (src/hooks/usePerformanceMonitor.ts),
  * the filter store's `updateFilters` (src/contexts/FilterContext.tsx).

JavaScript numbers are modelled as `Int`, timestamps as `Int`, dynamic
("duck-typed") object fields as `Option`-valued record fields, and JS `Map`s
as association lists in insertion order.
-/

namespace EsaForecast

open List

/-! ## Generic list machinery

`Array.prototype.sort` with a comparator (used by `cleanCache`) and the SQL
`order by` clause are modelled by an insertion sort.  It reduces by kernel
computation, which the concrete witnesses below rely on. -/

def insertSorted (le : α → α → Bool) (a : α) : List α → List α
  | [] => [a]
  | b :: bs => if le a b then a :: b :: bs else b :: insertSorted le a bs

def insertionSort (le : α → α → Bool) : List α → List α
  | [] => []
  | a :: as => insertSorted le a (insertionSort le as)

theorem insertSorted_perm (le : α → α → Bool) (a : α) (l : List α) :
    insertSorted le a l ~ a :: l := by
  induction l with
  | nil => simp [insertSorted]
  | cons b bs ih =>
    simp only [insertSorted]
    by_cases h : le a b = true
    · simp [h]
    · simp only [h, if_false]
      exact ((ih.cons b).trans (List.Perm.swap a b bs))

theorem insertionSort_perm (le : α → α → Bool) (l : List α) :
    insertionSort le l ~ l := by
  induction l with
  | nil => simp [insertionSort]
  | cons a as ih =>
    exact (insertSorted_perm le a (insertionSort le as)).trans (ih.cons a)

theorem insertSorted_pairwise (le : α → α → Bool)
    (htot : ∀ a b, le a b = false → le b a = true)
    (htrans : ∀ a b c, le a b = true → le b c = true → le a c = true)
    (a : α) (l : List α)
    (hl : l.Pairwise (fun x y => le x y = true)) :
    (insertSorted le a l).Pairwise (fun x y => le x y = true) := by
  induction l with
  | nil => simp [insertSorted]
  | cons b bs ih =>
    simp only [insertSorted]
    rcases List.pairwise_cons.mp hl with ⟨hb, hbs⟩
    by_cases h : le a b = true
    · simp only [h, if_true]
      refine List.pairwise_cons.mpr ⟨?_, hl⟩
      intro x hx
      rcases List.mem_cons.mp hx with rfl | hx
      · exact h
      · exact htrans a b x h (hb x hx)
    · simp only [h, if_false]
      refine List.pairwise_cons.mpr ⟨?_, ih hbs⟩
      intro x hx
      rcases List.mem_cons.mp ((insertSorted_perm le a bs).mem_iff.mp hx) with rfl | hx'
      · exact htot _ b (by simpa using h)
      · exact hb x hx'

theorem insertionSort_pairwise (le : α → α → Bool)
    (htot : ∀ a b, le a b = false → le b a = true)
    (htrans : ∀ a b c, le a b = true → le b c = true → le a c = true)
    (l : List α) :
    (insertionSort le l).Pairwise (fun x y => le x y = true) := by
  induction l with
  | nil => simp [insertionSort]
  | cons a as ih =>
    exact insertSorted_pairwise le htot htrans a _ ih

theorem insertionSort_of_pairwise (le : α → α → Bool) (l : List α)
    (hl : l.Pairwise (fun x y => le x y = true)) :
    insertionSort le l = l := by
  induction l with
  | nil => rfl
  | cons a as ih =>
    rcases List.pairwise_cons.mp hl with ⟨ha, has⟩
    simp only [insertionSort, ih has]
    cases as with
    | nil => rfl
    | cons b bs => simp [insertSorted, ha b (List.mem_cons_self b bs)]

theorem mem_insertionSort (le : α → α → Bool) {a : α} {l : List α} :
    a ∈ insertionSort le l ↔ a ∈ l :=
  (insertionSort_perm le l).mem_iff

/-- Two sorts of permuted inputs agree, given totality, transitivity and
antisymmetry of the comparator. -/
theorem insertionSort_eq_of_perm (le : α → α → Bool)
    (htot : ∀ a b, le a b = false → le b a = true)
    (htrans : ∀ a b c, le a b = true → le b c = true → le a c = true)
    (hanti : ∀ a b, le a b = true → le b a = true → a = b)
    {l₁ l₂ : List α} (h : l₁ ~ l₂) :
    insertionSort le l₁ = insertionSort le l₂ := by
  haveI : IsAntisymm α (fun a b => le a b = true) := ⟨hanti⟩
  exact List.eq_of_perm_of_sorted
    (((insertionSort_perm le l₁).trans h).trans (insertionSort_perm le l₂).symm)
    (insertionSort_pairwise le htot htrans l₁)
    (insertionSort_pairwise le htot htrans l₂)

/-- Lexicographic comparison of char lists by code point, the order
`Array.prototype.sort()` applies to string keys. -/
def charListLe : List Char → List Char → Bool
  | [], _ => true
  | _ :: _, [] => false
  | a :: as, b :: bs =>
    if a.toNat < b.toNat then true
    else if b.toNat < a.toNat then false
    else charListLe as bs

/-- String comparison used for the fingerprint's key sort. -/
def strLe (a b : String) : Bool :=
  charListLe a.toList b.toList

theorem charListLe_total : ∀ as bs : List Char,
    charListLe as bs = false → charListLe bs as = true := by
  intro as
  induction as with
  | nil => intro bs h; simp [charListLe] at h
  | cons a as ih =>
    intro bs h
    cases bs with
    | nil => rfl
    | cons b bs =>
      simp only [charListLe] at h ⊢
      by_cases h1 : a.toNat < b.toNat
      · simp [h1] at h
      · by_cases h2 : b.toNat < a.toNat
        · simp [h1, h2] at h ⊢
        · simp only [h1, if_false, h2, if_false] at h ⊢
          exact ih bs h

theorem charListLe_trans : ∀ as bs cs : List Char,
    charListLe as bs = true → charListLe bs cs = true →
    charListLe as cs = true := by
  intro as
  induction as with
  | nil => intro bs cs _ _; rfl
  | cons a as ih =>
    intro bs cs h1 h2
    cases bs with
    | nil => simp [charListLe] at h1
    | cons b bs =>
      cases cs with
      | nil => simp [charListLe] at h2
      | cons c cs =>
        simp only [charListLe] at h1 h2 ⊢
        rcases Nat.lt_trichotomy a.toNat b.toNat with hab | hab | hab
        · rcases Nat.lt_trichotomy b.toNat c.toNat with hbc | hbc | hbc
          · simp [Nat.lt_trans hab hbc]
          · rw [hbc] at hab
            simp [hab]
          · simp [Nat.lt_asymm hbc, hbc] at h2
        · rcases Nat.lt_trichotomy b.toNat c.toNat with hbc | hbc | hbc
          · simp [hab, hbc]
          · rw [hab] at h1 ⊢
            rw [hbc] at h2 ⊢
            simp only [Nat.lt_irrefl, if_false] at h1 h2 ⊢
            exact ih bs cs h1 h2
          · simp [Nat.lt_asymm hbc, hbc] at h2
        · simp [Nat.lt_asymm hab, hab] at h1

theorem charListLe_antisymm : ∀ as bs : List Char,
    charListLe as bs = true → charListLe bs as = true → as = bs := by
  intro as
  induction as with
  | nil =>
    intro bs _ h
    cases bs with
    | nil => rfl
    | cons b bs => simp [charListLe] at h
  | cons a as ih =>
    intro bs h1 h2
    cases bs with
    | nil => simp [charListLe] at h1
    | cons b bs =>
      simp only [charListLe] at h1 h2
      rcases Nat.lt_trichotomy a.toNat b.toNat with hab | hab | hab
      · simp [Nat.lt_asymm hab, hab] at h2
      · have hc : a = b := Char.ext (UInt32.ext hab)
        subst hc
        simp only [Nat.lt_irrefl, if_false] at h1 h2
        exact congrArg (a :: ·) (ih bs h1 h2)
      · simp [Nat.lt_asymm hab, hab] at h1

theorem strLe_total (a b : String) (h : strLe a b = false) : strLe b a = true :=
  charListLe_total _ _ h

theorem strLe_trans (a b c : String) (h1 : strLe a b = true)
    (h2 : strLe b c = true) : strLe a c = true :=
  charListLe_trans _ _ _ h1 h2

theorem strLe_antisymm (a b : String) (h1 : strLe a b = true)
    (h2 : strLe b a = true) : a = b := by
  have := charListLe_antisymm _ _ h1 h2
  cases a; cases b
  simpa [String.toList] using congrArg String.mk this

/-- Whether `hay` starts with `needle` (char lists). -/
def startsWithChars : List Char → List Char → Bool
  | _, [] => true
  | [], _ :: _ => false
  | h :: hs, n :: ns => h == n && startsWithChars hs ns

/-- Whether `needle` occurs as a contiguous sublist of `hay`. -/
def containsChars (hay needle : List Char) : Bool :=
  startsWithChars hay needle ||
    match hay with
    | [] => false
    | _ :: t => containsChars t needle

/-- JavaScript `haystack.includes(needle)` on strings: `true` iff `needle`
is a (possibly empty) substring of `haystack`. -/
def strContains (haystack needle : String) : Bool :=
  containsChars haystack.toList needle.toList

/-- JavaScript `s.toLowerCase()` (restricted to the per-character lowering
that the identifiers and search terms in this code base exercise). -/
def strLower (s : String) : String :=
  ⟨s.data.map Char.toLower⟩

/-- JavaScript `s.trim()`: strip leading and trailing whitespace. -/
def jsTrim (s : String) : String :=
  ⟨((s.data.dropWhile Char.isWhitespace).reverse.dropWhile
      Char.isWhitespace).reverse⟩

/-! ## Data model

`types.ts` / `types/filters.ts`.  A JS `Date` is modelled by its epoch
timestamp together with the calendar fields the code extracts from it
(`getFullYear()`, `getMonth() + 1`). -/

structure CalDate where
  ts : Int
  year : Int
  month : Int
deriving DecidableEq, Repr

/-- `DateRange` from types/filters.ts: `start`/`end` are `Date`s used by the
client-side evaluator, `startDate`/`endDate` are the optional API-compat
fields read by `buildDynamicQuery`.  (`end` is a Lean keyword, hence `end'`.) -/
structure DateRange where
  start : Option CalDate
  end' : Option CalDate
  startDate : Option CalDate
  endDate : Option CalDate
deriving DecidableEq, Repr

/-- `NumericRange`: the evaluator treats each bound as independently optional
(it tests `min !== undefined` / `max !== undefined`), so both are `Option`. -/
structure NumericRange where
  min : Option Int
  max : Option Int
deriving DecidableEq, Repr

inductive ForecastStatus where
  | Draft
  | Approved
deriving DecidableEq, Repr

/-- The string value of the `ForecastStatus` enum
(`Draft = 'Bozza'`, `Approved = 'Approvato'`). -/
def statusString : ForecastStatus → String
  | .Draft => "Bozza"
  | .Approved => "Approvato"

/-- A forecast record as the two filter interpreters consult it.  The
client-side evaluator reads the snake_case fields duck-typed (they may be
absent on a given object, hence `Option`); the server path reads the database
row columns plus the joined `clients.paese`/`clients.name`,
`business_units.name` and `profiles.full_name` values, which correspond to
`country`, `client_name`, `business_unit_name` and `user_name` here. -/
structure ForecastRecord where
  id : Int
  year : Int
  month : Int
  created_at : Option Int
  business_unit_id : Option Int
  client_id : Option Int
  user_id : Option String
  status : ForecastStatus
  country : Option String
  budget : Option Int
  forecast : Option Int
  declared_budget : Option Int
  description : Option String
  client_name : Option String
  business_unit_name : Option String
  user_name : Option String
  last_modified : Int
deriving DecidableEq, Repr

/-- `FilterQuery` from types/filters.ts.  An absent array field and an empty
array drive every consumer identically (`xs && xs.length > 0`), so array
fields are plain lists; likewise an absent and an empty `textSearch`. -/
structure FilterQuery where
  dateRange : Option DateRange
  businessUnitIds : List Int
  clientIds : List Int
  userIds : List String
  statuses : List ForecastStatus
  countries : List String
  budgetRange : Option NumericRange
  forecastRange : Option NumericRange
  declaredBudgetRange : Option NumericRange
  textSearch : String
  limit : Int
  offset : Int
  orderBy : String
  orderDirection : String
deriving DecidableEq, Repr

/-- `defaultFilters` from FilterContext.tsx. -/
def defaultFilters : FilterQuery :=
  { dateRange := none
    businessUnitIds := []
    clientIds := []
    userIds := []
    statuses := []
    countries := []
    budgetRange := none
    forecastRange := none
    declaredBudgetRange := none
    textSearch := ""
    limit := 100
    offset := 0
    orderBy := "last_modified"
    orderDirection := "desc" }

/-! ## Client-Side Filter Evaluator

`filterForecastsClientSide` (src/unnamed/part_003, lines 293-395), translated
clause by clause.  Each sequential `if (...) return false` becomes one `&&`
conjunct. -/

/-- The per-record predicate of `filterForecastsClientSide`
(the body of `forecasts.filter(forecast => ...)`). -/
def acceptsRecord (query : FilterQuery) (forecast : ForecastRecord) : Bool :=
  -- date-range clause: `new Date(forecast.created_at)` of an absent field is
  -- an Invalid Date, whose `<`/`>` comparisons are both false in JS, so such
  -- a record is never excluded by this clause
  (match query.dateRange with
   | some dr =>
     match dr.start, dr.end' with
     | some s, some e =>
       match forecast.created_at with
       | some t => !(decide (t < s.ts) || decide (t > e.ts))
       | none => true
     | _, _ => true
   | none => true)
  &&
  (query.businessUnitIds.isEmpty ||
    match forecast.business_unit_id with
    | some i => query.businessUnitIds.contains i
    | none => false)
  &&
  (query.clientIds.isEmpty ||
    match forecast.client_id with
    | some i => query.clientIds.contains i
    | none => false)
  &&
  (query.userIds.isEmpty ||
    match forecast.user_id with
    | some u => query.userIds.contains u
    | none => false)
  &&
  (query.statuses.isEmpty || query.statuses.contains forecast.status)
  &&
  (query.countries.isEmpty ||
    match forecast.country with
    | some c => query.countries.contains c
    | none => false)
  &&
  (match query.budgetRange with
   | some r =>
     let budget := forecast.budget.getD 0
     !(r.min.any (fun m => decide (budget < m))) &&
     !(r.max.any (fun m => decide (budget > m)))
   | none => true)
  &&
  (match query.forecastRange with
   | some r =>
     let forecastValue := forecast.forecast.getD 0
     !(r.min.any (fun m => decide (forecastValue < m))) &&
     !(r.max.any (fun m => decide (forecastValue > m)))
   | none => true)
  &&
  (match query.declaredBudgetRange with
   | some r =>
     let declaredBudget := forecast.declared_budget.getD 0
     !(r.min.any (fun m => decide (declaredBudget < m))) &&
     !(r.max.any (fun m => decide (declaredBudget > m)))
   | none => true)
  &&
  (if !query.textSearch.isEmpty && !(jsTrim query.textSearch).isEmpty then
     let searchTerm := strLower query.textSearch
     let searchableFields :=
       ([forecast.description, forecast.client_name,
         forecast.business_unit_name, forecast.user_name].filterMap id).filter
         (fun f => !f.isEmpty)
     searchableFields.any (fun f => strContains (strLower f) searchTerm)
   else true)

/-- `filterForecastsClientSide(forecasts, query)`. -/
def filterForecastsClientSide (forecasts : List ForecastRecord)
    (query : FilterQuery) : List ForecastRecord :=
  forecasts.filter (fun forecast => acceptsRecord query forecast)

/-- A concrete record used by the example-based theorem parts. -/
def sampleRecord : ForecastRecord :=
  { id := 1
    year := 2024
    month := 3
    created_at := some 1000
    business_unit_id := some 1
    client_id := some 2
    user_id := some "u1"
    status := .Draft
    country := some "IT"
    budget := some 100
    forecast := some 50
    declared_budget := some 80
    description := some "Alpha project"
    client_name := some "Acme"
    business_unit_name := some "D03"
    user_name := some "Mario Rossi"
    last_modified := 10 }

/-- C6: the empty filter (`defaultFilters`: `dateRange: null`, all id, status
and country lists empty, all numeric ranges `null`, `textSearch: ''`) is a
no-op for the client-side evaluator — every record is accepted, on every
collection. -/
theorem C6_empty_filter_noop (forecasts : List ForecastRecord) :
    filterForecastsClientSide forecasts defaultFilters = forecasts := by
  unfold filterForecastsClientSide
  exact List.filter_eq_self.mpr (fun r _ => rfl)

/-- C7: numeric range filtering in the client-side evaluator is inclusive at
both bounds and each bound applies independently: a budget of 100 passes
`{min: 100, max: 100}` and fails `{min: 101}`; an absent numeric value is
filtered exactly as the value 0 (for each of the three numeric fields); and a
range with only `min` defined enforces only the lower bound. -/
theorem C7_numeric_range_semantics :
    (filterForecastsClientSide [sampleRecord]
      {defaultFilters with budgetRange := some ⟨some 100, some 100⟩}
      = [sampleRecord])
    ∧ (filterForecastsClientSide [sampleRecord]
        {defaultFilters with budgetRange := some ⟨some 101, none⟩} = [])
    ∧ (∀ (q : FilterQuery) (r : ForecastRecord),
        acceptsRecord q {r with budget := none}
          = acceptsRecord q {r with budget := some 0}
        ∧ acceptsRecord q {r with forecast := none}
          = acceptsRecord q {r with forecast := some 0}
        ∧ acceptsRecord q {r with declared_budget := none}
          = acceptsRecord q {r with declared_budget := some 0})
    ∧ (∀ (m v : Int) (r : ForecastRecord),
        acceptsRecord {defaultFilters with budgetRange := some ⟨some m, none⟩}
          {r with budget := some v} = decide (m ≤ v)) := by
  refine ⟨by decide, by decide, ?_, ?_⟩
  · intro q r
    refine ⟨?_, ?_, ?_⟩ <;> simp [acceptsRecord]
  · intro m v r
    simp [acceptsRecord, defaultFilters, show "".isEmpty = true from rfl,
      decide_eq_decide, not_lt, ← decide_not, not_le]

/-! ## Query Fingerprinting

`generateQueryHash = (filters) => JSON.stringify(filters, Object.keys(filters).sort())`
(src/unnamed/part_003, lines 60-63).

`JSON.stringify` with an *array* replacer serializes, at every object level,
only the properties whose names occur in the array, in the array's order.
The model below follows ECMA-262 `SerializeJSONObject`: the property list
`ws` (the sorted top-level key names) acts as both whitelist and ordering for
every (nested) object, array elements are all serialized (`undefined`
becoming `"null"`), and `undefined`-valued object properties are omitted. -/

inductive JsonValue where
  | null
  | undefined
  | str (s : String)
  | num (n : Int)
  | arr (elems : List JsonValue)
  | obj (fields : List (String × JsonValue))

def jsonQuote (s : String) : String :=
  "\"" ++ s ++ "\""

/-- Property access on a JS object literal (first binding wins). -/
def jsLookup : List (String × JsonValue) → String → Option JsonValue
  | [], _ => none
  | (k', v) :: fs, k => if k' = k then some v else jsLookup fs k

/-- `JSON.stringify(v, ws)` with an array replacer `ws`; `none` encodes the
JS result `undefined`.  The fuel argument only bounds the nesting depth. -/
def stringifyFuel : Nat → List String → JsonValue → Option String
  | 0, _, _ => none
  | _ + 1, _, .null => some "null"
  | _ + 1, _, .undefined => none
  | _ + 1, _, .str s => some (jsonQuote s)
  | _ + 1, _, .num n => some (toString n)
  | fuel + 1, ws, .arr es =>
    some ("[" ++ String.intercalate ","
      (es.map (fun e => (stringifyFuel fuel ws e).getD "null")) ++ "]")
  | fuel + 1, ws, .obj fs =>
    some ("\x7b" ++ String.intercalate ","
      (ws.filterMap (fun k =>
        (jsLookup fs k).bind (fun v =>
          (stringifyFuel fuel ws v).map (fun s => jsonQuote k ++ ":" ++ s))))
      ++ "\x7d")

/-- `generateQueryHash(filters)`: stringify the filter object with its own
sorted key list as replacer.  The object is given as its JS property list in
insertion order. -/
def generateQueryHash (fields : List (String × JsonValue)) : String :=
  (stringifyFuel 100 (insertionSort strLe (fields.map Prod.fst))
    (.obj fields)).getD "undefined"

/-- The JSON view of a `FilterQuery` object: one `JsonValue` per field of
the object literal that `buildQuery()` returns. -/
structure FilterQueryObj where
  dateRange : JsonValue
  businessUnitIds : JsonValue
  clientIds : JsonValue
  userIds : JsonValue
  statuses : JsonValue
  countries : JsonValue
  budgetRange : JsonValue
  forecastRange : JsonValue
  declaredBudgetRange : JsonValue
  textSearch : JsonValue
  limit : JsonValue
  offset : JsonValue
  orderBy : JsonValue
  orderDirection : JsonValue

/-- The value of a named own property of a `FilterQueryObj`. -/
def fieldValue (q : FilterQueryObj) : String → JsonValue
  | "dateRange" => q.dateRange
  | "businessUnitIds" => q.businessUnitIds
  | "clientIds" => q.clientIds
  | "userIds" => q.userIds
  | "statuses" => q.statuses
  | "countries" => q.countries
  | "budgetRange" => q.budgetRange
  | "forecastRange" => q.forecastRange
  | "declaredBudgetRange" => q.declaredBudgetRange
  | "textSearch" => q.textSearch
  | "limit" => q.limit
  | "offset" => q.offset
  | "orderBy" => q.orderBy
  | "orderDirection" => q.orderDirection
  | _ => .undefined

/-- The key order of the object literal built by `buildQuery()`. -/
def standardOrder : List String :=
  ["dateRange", "businessUnitIds", "clientIds", "userIds", "statuses",
   "countries", "budgetRange", "forecastRange", "declaredBudgetRange",
   "textSearch", "limit", "offset", "orderBy", "orderDirection"]

/-- The property list of a `FilterQueryObj` under a given key-insertion
order. -/
def fieldsOf (q : FilterQueryObj) (order : List String) :
    List (String × JsonValue) :=
  order.map (fun k => (k, fieldValue q k))

theorem fieldsOf_map_fst (q : FilterQueryObj) (o : List String) :
    (fieldsOf q o).map Prod.fst = o := by
  unfold fieldsOf
  rw [List.map_map]
  exact List.map_id o

/-- Congruence for object serialization: if the two property lists produce
the same serialized item at every whitelisted key, the serializations
agree. -/
theorem stringifyFuel_obj_congr (fuel : Nat) (ws : List String)
    (fs₁ fs₂ : List (String × JsonValue))
    (h : ∀ k ∈ ws,
      (jsLookup fs₁ k).bind (fun v =>
        (stringifyFuel fuel ws v).map (fun s => jsonQuote k ++ ":" ++ s))
      = (jsLookup fs₂ k).bind (fun v =>
          (stringifyFuel fuel ws v).map (fun s => jsonQuote k ++ ":" ++ s))) :
    stringifyFuel (fuel + 1) ws (.obj fs₁)
      = stringifyFuel (fuel + 1) ws (.obj fs₂) := by
  have hfm := List.filterMap_congr h
  simp only [stringifyFuel, hfm]

theorem jsLookup_fieldsOf (q : FilterQueryObj) (o : List String) (k : String) :
    jsLookup (fieldsOf q o) k = if k ∈ o then some (fieldValue q k) else none := by
  induction o with
  | nil => simp [fieldsOf, jsLookup]
  | cons k' o' ih =>
    simp only [fieldsOf, List.map_cons, jsLookup] at ih ⊢
    by_cases h : k' = k
    · subst h
      simp
    · simp only [h, if_false, ih, List.mem_cons]
      by_cases hk : k ∈ o' <;> simp [hk, Ne.symm h]

/-- `standardOrder` sorted lexicographically (= `Object.keys(q).sort()`). -/
def sortedStandardKeys : List String :=
  ["budgetRange", "businessUnitIds", "clientIds", "countries", "dateRange",
   "declaredBudgetRange", "forecastRange", "limit", "offset", "orderBy",
   "orderDirection", "statuses", "textSearch", "userIds"]

theorem insertionSort_standardOrder :
    insertionSort strLe standardOrder = sortedStandardKeys := by decide

/-- A `buildQuery()`-shaped JSON object whose nested `dateRange` and
numeric-range objects hold arbitrary values. -/
def nestedValuesQuery (ds de mn mx fmn fmx dmn dmx : JsonValue) :
    FilterQueryObj :=
  { dateRange := .obj [("start", ds), ("end", de)]
    businessUnitIds := .arr []
    clientIds := .arr []
    userIds := .arr []
    statuses := .arr []
    countries := .arr []
    budgetRange := .obj [("min", mn), ("max", mx)]
    forecastRange := .obj [("min", fmn), ("max", fmx)]
    declaredBudgetRange := .obj [("min", dmn), ("max", dmx)]
    textSearch := .str ""
    limit := .num 100
    offset := .num 0
    orderBy := .str "last_modified"
    orderDirection := .str "desc" }

/-- Two concrete filter objects that differ only in `budgetRange.min`. -/
def collidingQueryA : FilterQueryObj :=
  nestedValuesQuery .null .null (.num 0) (.num 100) .null .null .null .null

/-- Same as `collidingQueryA` except `budgetRange.min` is 999. -/
def collidingQueryB : FilterQueryObj :=
  nestedValuesQuery .null .null (.num 999) (.num 100) .null .null .null .null

/-- C2 counterexample: two `FilterQuery` objects that differ in a field value
(inside the nested `budgetRange` object: `min` 0 versus `min` 999) but have
the *same* fingerprint, because the array replacer
`Object.keys(filters).sort()` whitelists only top-level key names, so every
nested object serializes as `{}`.  This refutes the claimed sensitivity of
`generateQueryHash` to nested field values. -/
theorem C2_counterexample :
    generateQueryHash (fieldsOf collidingQueryA standardOrder)
      = generateQueryHash (fieldsOf collidingQueryB standardOrder)
    ∧ fieldsOf collidingQueryA standardOrder
      ≠ fieldsOf collidingQueryB standardOrder := by
  constructor
  · rfl
  · intro h
    have h1 := congrArg (fun fs => jsLookup fs "budgetRange") h
    simp [collidingQueryA, collidingQueryB, nestedValuesQuery, fieldsOf,
      standardOrder, jsLookup, fieldValue] at h1

/-- C2 (amended): `generateQueryHash` is insensitive to key-insertion order —
any two property orders that are permutations of each other give the same
fingerprint — but it is *not* sensitive to every field value: the values
stored inside the nested `dateRange` and numeric-range objects never affect
the fingerprint (they are erased by the top-level-key replacer array). -/
theorem C2_fingerprint_determinism :
    (∀ (q : FilterQueryObj) (o₁ o₂ : List String), o₁ ~ o₂ →
      generateQueryHash (fieldsOf q o₁) = generateQueryHash (fieldsOf q o₂))
    ∧ (∀ ds de mn mx fmn fmx dmn dmx ds' de' mn' mx' fmn' fmx' dmn' dmx' :
        JsonValue,
      generateQueryHash
          (fieldsOf (nestedValuesQuery ds de mn mx fmn fmx dmn dmx)
            standardOrder)
        = generateQueryHash
            (fieldsOf (nestedValuesQuery ds' de' mn' mx' fmn' fmx' dmn' dmx')
              standardOrder)) := by
  constructor
  · intro q o₁ o₂ hperm
    unfold generateQueryHash
    rw [fieldsOf_map_fst, fieldsOf_map_fst,
      insertionSort_eq_of_perm strLe strLe_total strLe_trans strLe_antisymm
        hperm]
    refine congrArg (fun o => Option.getD o "undefined")
      (stringifyFuel_obj_congr 99 _ _ _ ?_)
    intro k hk
    have hk₂ : k ∈ o₂ := (mem_insertionSort strLe).mp hk
    have hk₁ : k ∈ o₁ := hperm.mem_iff.mpr hk₂
    rw [jsLookup_fieldsOf, jsLookup_fieldsOf, if_pos hk₁, if_pos hk₂]
  · intro ds de mn mx fmn fmx dmn dmx ds' de' mn' mx' fmn' fmx' dmn' dmx'
    unfold generateQueryHash
    rw [fieldsOf_map_fst, fieldsOf_map_fst, insertionSort_standardOrder]
    refine congrArg (fun o => Option.getD o "undefined")
      (stringifyFuel_obj_congr 99 _ _ _ ?_)
    intro k hk
    fin_cases hk <;> rfl

/-! ## Result Cache

The module-level `dataCache : Map<string, CacheEntry>` of
src/unnamed/part_003, modelled as an association list in insertion order
(the enumeration order of a JS `Map`), together with `cleanCache`
(lines 66-74) and the write path of `executeFiltering` (lines 191-200). -/

/-- `CacheEntry`.  The statistics payload is opaque to the cache and the
orchestrator, so it is modelled as a bare number. -/
structure CacheEntry where
  data : List ForecastRecord
  timestamp : Int
  queryHash : String
  statistics : Option Int
deriving DecidableEq, Repr

/-- The state of a JS `Map<string, CacheEntry>` in insertion order. -/
abbrev Cache := List (String × CacheEntry)

/-- `Map.get`. -/
def mapGet : Cache → String → Option CacheEntry
  | [], _ => none
  | (k', v) :: m, k => if k' = k then some v else mapGet m k

/-- `Map.set`: update in place if the key exists, else append. -/
def mapSet : Cache → String → CacheEntry → Cache
  | [], k, v => [(k, v)]
  | (k', v') :: m, k, v =>
    if k' = k then (k', v) :: m else (k', v') :: mapSet m k v

/-- `Map.delete`. -/
def mapDelete (m : Cache) (k : String) : Cache :=
  m.filter (fun e => !(e.1 == k))

/-- `cleanCache(maxSize)`: when over capacity, sort the entries by ascending
timestamp and delete the oldest `size - maxSize` of them. -/
def cleanCache (maxSize : Nat) (cache : Cache) : Cache :=
  if cache.length ≤ maxSize then cache
  else
    let entries :=
      insertionSort (fun a b => decide (a.2.timestamp ≤ b.2.timestamp)) cache
    let toDelete := entries.take (entries.length - maxSize)
    toDelete.foldl (fun m e => mapDelete m e.1) cache

/-- The cache write path of `executeFiltering` (lines 191-200):
`cleanCache(config.maxCacheSize)` followed by `dataCache.set(queryHash, …)`. -/
def cacheWrite (maxSize : Nat) (cache : Cache) (queryHash : String)
    (entry : CacheEntry) : Cache :=
  mapSet (cleanCache maxSize cache) queryHash entry

/-- Running the cache write path once per entry, starting from an empty
cache. -/
def insertSeq (maxSize : Nat) (entries : List (String × CacheEntry)) : Cache :=
  entries.foldl (fun c kv => cacheWrite maxSize c kv.1 kv.2) []

theorem mapSet_of_fresh {m : Cache} {k : String} (v : CacheEntry)
    (h : ∀ e ∈ m, ¬ e.1 = k) : mapSet m k v = m ++ [(k, v)] := by
  induction m with
  | nil => rfl
  | cons e m ih =>
    simp only [mapSet]
    rw [if_neg (h e (List.mem_cons_self e m))]
    simp only [List.cons_append, List.cons.injEq, true_and]
    exact ih (fun e' he' => h e' (List.mem_cons_of_mem e he'))

theorem mapDelete_cons_self {x : String × CacheEntry} {m : Cache}
    (h : ∀ e ∈ m, ¬ e.1 = x.1) : mapDelete (x :: m) x.1 = m := by
  simp only [mapDelete, List.filter]
  rw [show (!(x.1 == x.1)) = false by simp]
  exact List.filter_eq_self.mpr (fun e he => by simp [h e he])

theorem mapGet_mapSet_self (m : Cache) (k : String) (v : CacheEntry) :
    mapGet (mapSet m k v) k = some v := by
  induction m with
  | nil => simp [mapSet, mapGet]
  | cons e m ih =>
    simp only [mapSet]
    by_cases h : e.1 = k
    · simp [h, mapGet]
    · simp [h, mapGet, ih]

theorem mapGet_mapSet_ne (m : Cache) {k k' : String} (v : CacheEntry)
    (h : ¬ k = k') : mapGet (mapSet m k v) k' = mapGet m k' := by
  induction m with
  | nil => simp [mapSet, mapGet, h]
  | cons e m ih =>
    simp only [mapSet]
    by_cases he : e.1 = k
    · simp [mapGet, he, h]
    · simp only [he, if_false, mapGet]
      by_cases he' : e.1 = k' <;> simp [he', ih]

/-- The cache write path keeps, at every point, exactly the suffix of the
most recent `maxSize + 1` insertions (timestamps increasing, keys distinct):
`cleanCache` runs *before* the insertion, so occupancy settles at
`maxSize + 1`, not `maxSize`. -/
theorem insertSeq_eq_suffix (maxSize : Nat) (es : List (String × CacheEntry))
    (hts : es.Pairwise (fun a b => a.2.timestamp ≤ b.2.timestamp))
    (hk : (es.map Prod.fst).Nodup) :
    insertSeq maxSize es = es.drop (es.length - (maxSize + 1)) := by
  induction es using List.reverseRecOn with
  | nil => simp [insertSeq]
  | append_singleton l a ih =>
    have hsplit := List.pairwise_append.mp hts
    have hpl : l.Pairwise (fun a b => a.2.timestamp ≤ b.2.timestamp) :=
      hsplit.1
    have hla : ∀ x ∈ l, x.2.timestamp ≤ a.2.timestamp := by
      intro x hx
      exact hsplit.2.2 x hx a (List.mem_singleton_self a)
    have hkl : (l.map Prod.fst).Nodup := by
      rw [List.map_append] at hk
      exact (List.nodup_append.mp hk).1
    have hfresh : ∀ e ∈ l, ¬ e.1 = a.1 := by
      intro e he heq
      rw [List.map_append] at hk
      rcases List.nodup_append.mp hk with ⟨-, -, hdisj⟩
      exact hdisj (heq ▸ List.mem_map_of_mem Prod.fst he) (by simp)
    have hstep : insertSeq maxSize (l ++ [a])
        = cacheWrite maxSize (insertSeq maxSize l) a.1 a.2 := by
      simp [insertSeq, List.foldl_append]
    rw [hstep, ih hpl hkl]
    set S := maxSize + 1 with hS
    set n := l.length - S with hn
    have hcsub : l.drop n <+ l := List.drop_sublist n l
    have hcp : (l.drop n).Pairwise (fun a b => a.2.timestamp ≤ b.2.timestamp) :=
      hpl.sublist hcsub
    have hcfresh : ∀ e ∈ l.drop n, ¬ e.1 = a.1 :=
      fun e he => hfresh e (hcsub.mem he)
    by_cases hlen : l.length ≤ maxSize
    · have hn0 : n = 0 := by omega
      have hclean : cleanCache maxSize (l.drop n) = l.drop n := by
        unfold cleanCache
        rw [if_pos (by simp [hn0]; omega)]
      rw [cacheWrite, hclean, mapSet_of_fresh _ hcfresh, hn0, List.drop_zero]
      have : (l ++ [a]).length - S = 0 := by simp; omega
      rw [this, List.drop_zero]
    · -- the cache already holds maxSize + 1 entries: evict one, then insert
      have hSlen : S ≤ l.length := by omega
      have hclen : (l.drop n).length = S := by
        have := List.length_drop n l
        omega
      have hne : l.drop n ≠ [] := by
        intro h
        rw [h] at hclen
        simp at hclen
        omega
      obtain ⟨c0, ctail, hc⟩ := List.exists_cons_of_ne_nil hne
      have hsorted : insertionSort
          (fun a b => decide (a.2.timestamp ≤ b.2.timestamp)) (l.drop n)
          = l.drop n :=
        insertionSort_of_pairwise _ _ (hcp.imp (fun h => by simpa using h))
      have hctail_fresh : ∀ e ∈ ctail, ¬ e.1 = c0.1 := by
        have : ((l.drop n).map Prod.fst).Nodup := by
          rw [List.map_drop]
          exact hkl.sublist (List.drop_sublist n _)
        rw [hc, List.map_cons, List.nodup_cons] at this
        intro e he heq
        exact this.1 (heq ▸ List.mem_map_of_mem Prod.fst he)
      have hclean : cleanCache maxSize (l.drop n) = ctail := by
        unfold cleanCache
        rw [if_neg (by omega)]
        simp only [hsorted, hclen]
        have h1 : S - maxSize = 1 := by omega
        rw [h1, hc]
        rw [show List.take 1 (c0 :: ctail) = [c0] from rfl]
        simp only [List.foldl_cons, List.foldl_nil]
        exact mapDelete_cons_self hctail_fresh
      have hctail_fresh_a : ∀ e ∈ ctail, ¬ e.1 = a.1 := by
        intro e he
        exact hcfresh e (by rw [hc]; exact List.mem_cons_of_mem c0 he)
      rw [cacheWrite, hclean, mapSet_of_fresh _ hctail_fresh_a]
      have hctail : ctail = l.drop (n + 1) := by
        have : (l.drop n).tail = l.drop (n + 1) := by
          rw [List.tail_drop]
        rw [hc] at this
        simpa using this
      have hgoal : (l ++ [a]).length - S = n + 1 := by
        simp only [List.length_append, List.length_singleton]
        omega
      rw [hgoal, hctail, List.drop_append_of_le_length (by omega)]

/-- C4 counterexample: with `maxSize = 1` and `k = 1`, inserting
`maxSize + k = 2` distinct entries through the cache write path leaves 2
entries, not `maxSize = 1` — `cleanCache` runs before the insertion, so it
never sees the entry that is about to be added. -/
theorem C4_counterexample :
    (insertSeq 1
      [("a", ⟨[], 1, "a", none⟩), ("b", ⟨[], 2, "b", none⟩)]).length = 2
    ∧ 2 ≠ 1 := by
  constructor
  · rfl
  · decide

/-- C4 (amended): inserting `maxSize + k` distinct entries (`k ≥ 1`,
strictly increasing timestamps) through the cache write path leaves exactly
`maxSize + 1` entries, and the retained entries are the `maxSize + 1`
most-recently-inserted ones. -/
theorem C4_capacity (maxSize k : Nat) (es : List (String × CacheEntry))
    (hts : es.Pairwise (fun a b => a.2.timestamp < b.2.timestamp))
    (hk : (es.map Prod.fst).Nodup)
    (hlen : es.length = maxSize + k) (hk1 : 1 ≤ k) :
    insertSeq maxSize es = es.drop (es.length - (maxSize + 1))
    ∧ (insertSeq maxSize es).length = maxSize + 1 := by
  have h := insertSeq_eq_suffix maxSize es
    (hts.imp (fun h => le_of_lt h)) hk
  refine ⟨h, ?_⟩
  rw [h, List.length_drop]
  omega

/-- Three distinct cache insertions with increasing timestamps. -/
def capEntries : List (String × CacheEntry) :=
  [("a", ⟨[], 1, "a", none⟩), ("b", ⟨[], 2, "b", none⟩),
    ("c", ⟨[], 3, "c", none⟩)]

/-- C4 witness: three entries through a `maxSize = 1` cache leave the two
most recent. -/
theorem C4_capacity_witness :
    insertSeq 1 capEntries = capEntries.drop (capEntries.length - (1 + 1))
    ∧ (insertSeq 1 capEntries).length = 1 + 1 :=
  C4_capacity 1 2 capEntries (by decide) (by decide) (by decide) (by decide)

/-! ## Filtered-Data Orchestrator

`executeFiltering` (src/unnamed/part_003, lines 131-222) split at its `await`
boundary: `executeFilteringStart` is the synchronous code up to and including
the cache lookup; `executeFilteringResolve` is the continuation that runs
once the remote calls settle (successfully or with an exception).  The
statistics payload is opaque here and modelled as `Int`; `captured` models
the closure-captured `statistics` value (the React state at the render that
created the callback), which is the value published *before* the fetch. -/

structure FilterConfig where
  enableCache : Bool
  cacheExpiry : Int
  maxCacheSize : Nat
  enableServerSideFiltering : Bool
deriving DecidableEq, Repr

/-- The resolution of `await getAdvancedForecasts(...)` together with
`await getFilteredStatistics(...)`: either both results or a thrown error. -/
inductive FetchOutcome where
  | success (data : List ForecastRecord) (stats : Int)
  | failure (msg : String)
deriving DecidableEq, Repr

/-- The orchestrator-visible React state of `useFilteredData`. -/
structure HookState where
  lastQuery : String
  loading : Bool
  error : Option String
  statistics : Option Int
  cache : Cache
deriving DecidableEq, Repr

/-- Result of the synchronous prelude of `executeFiltering`. -/
inductive StartResult where
  | skipped
  | hit (s' : HookState) (data : List ForecastRecord)
  | proceed (s' : HookState) (captured : Option Int)
deriving DecidableEq, Repr

/-- Lines 132-151: the fingerprint short-circuit, the `setLoading` /
`setError` / `lastQueryRef` updates and the cache lookup.  On a fresh hit the
cached data and statistics are published and the run ends; otherwise the run
continues to the fetch, with the current `statistics` value captured by the
closure. -/
def executeFilteringStart (cfg : FilterConfig) (queryHash : String)
    (now : Int) (s : HookState) : StartResult :=
  if queryHash = s.lastQuery then .skipped
  else
    let s1 : HookState :=
      { s with loading := true, error := none, lastQuery := queryHash }
    if cfg.enableCache then
      match mapGet s1.cache queryHash with
      | some cached =>
        if now - cached.timestamp < cfg.cacheExpiry then
          .hit { s1 with statistics := cached.statistics, loading := false }
            cached.data
        else .proceed s1 s.statistics
      | none => .proceed s1 s.statistics
    else .proceed s1 s.statistics

/-- Lines 153-221: the continuation after the remote calls settle.  On
success the fetched statistics are published, and the cache entry is written
with the *captured* `statistics` closure value (line 198).  On an exception
the client-side evaluator runs over the locally-held collection, the error
message is published, and nothing is cached.  With server-side filtering
disabled, the client-side result is computed and cached directly.  Returns
the new state and the data the call returns. -/
def executeFilteringResolve (cfg : FilterConfig)
    (forecasts : List ForecastRecord) (query : FilterQuery)
    (queryHash : String) (captured : Option Int) (outcome : FetchOutcome)
    (now : Int) (s : HookState) : HookState × List ForecastRecord :=
  if cfg.enableServerSideFiltering then
    match outcome with
    | .success data stats =>
      let s1 := { s with statistics := some stats }
      let s2 :=
        if cfg.enableCache then
          { s1 with cache := (cacheWrite cfg.maxCacheSize s1.cache queryHash
              ⟨data, now, queryHash, captured⟩) }
        else s1
      ({ s2 with loading := false }, data)
    | .failure msg =>
      ({ s with error := some msg, loading := false },
        filterForecastsClientSide forecasts query)
  else
    let filtered := filterForecastsClientSide forecasts query
    let s2 :=
      if cfg.enableCache then
        { s with cache := (cacheWrite cfg.maxCacheSize s.cache queryHash
            ⟨filtered, now, queryHash, captured⟩) }
      else s
    ({ s2 with loading := false }, filtered)

/-- `getCachedOrFilteredData` (lines 242-248): what consumers read — the
fresh cache entry for the *current* fingerprint, or a client-side filter of
the local collection. -/
def getCachedOrFilteredData (cfg : FilterConfig) (queryHash : String)
    (now : Int) (forecasts : List ForecastRecord) (query : FilterQuery)
    (s : HookState) : List ForecastRecord :=
  match mapGet s.cache queryHash with
  | some cached =>
    if now - cached.timestamp < cfg.cacheExpiry then cached.data
    else filterForecastsClientSide forecasts query
  | none => filterForecastsClientSide forecasts query

/-- C8: when the server-side fetch (query execution or statistics) throws,
the orchestrator recovers locally: the returned data is the client-side
evaluator applied to the locally-held collection, the error message is
published as a non-fatal `error` string, loading ends, and nothing else of
the state (statistics, cache) changes — the resolution step is a total
function, so no rejection escapes it. -/
theorem C8_error_fallback (cfg : FilterConfig)
    (forecasts : List ForecastRecord) (query : FilterQuery)
    (queryHash : String) (captured : Option Int) (msg : String) (now : Int)
    (s : HookState) (hserver : cfg.enableServerSideFiltering = true) :
    executeFilteringResolve cfg forecasts query queryHash captured
      (.failure msg) now s
      = ({ s with error := some msg, loading := false },
          filterForecastsClientSide forecasts query) := by
  simp [executeFilteringResolve, hserver]

/-- C8 witness. -/
theorem C8_error_fallback_witness :
    (true = true : Prop)
    ∧ executeFilteringResolve ⟨true, 300000, 100, true⟩ [sampleRecord]
        defaultFilters "h" none (.failure "boom") 5 ⟨"h", true, none, none, []⟩
        = (⟨"h", false, some "boom", none, []⟩, [sampleRecord]) := by
  constructor
  · rfl
  · rw [C8_error_fallback ⟨true, 300000, 100, true⟩ [sampleRecord]
      defaultFilters "h" none "boom" 5 ⟨"h", true, none, none, []⟩ rfl]
    rw [C6_empty_filter_noop]

/-- C10: on a cache-miss success path, the cache entry written for the
fingerprint stores the closure-captured `statistics` — the value published
*before* this fetch (the previous query's statistics, initially `null`) —
while the freshly fetched statistics are published to the state; any later
cache hit for the same fingerprint therefore republishes that earlier
statistics value, not the one fetched alongside the cached data. -/
theorem C10_cache_stores_stale_statistics (cfg : FilterConfig)
    (forecasts : List ForecastRecord) (query : FilterQuery)
    (queryHash : String) (data : List ForecastRecord) (stats : Int)
    (now now' : Int) (s s₁ : HookState) (captured : Option Int)
    (hstart : executeFilteringStart cfg queryHash now s
      = .proceed s₁ captured)
    (hcache : cfg.enableCache = true)
    (hserver : cfg.enableServerSideFiltering = true) :
    captured = s.statistics
    ∧ mapGet (executeFilteringResolve cfg forecasts query queryHash captured
        (.success data stats) now' s₁).1.cache queryHash
      = some ⟨data, now', queryHash, s.statistics⟩
    ∧ (executeFilteringResolve cfg forecasts query queryHash captured
        (.success data stats) now' s₁).1.statistics = some stats
    ∧ (∀ (s₃ : HookState) (e : CacheEntry) (now₃ : Int),
        mapGet s₃.cache queryHash = some e →
        ¬ queryHash = s₃.lastQuery →
        now₃ - e.timestamp < cfg.cacheExpiry →
        executeFilteringStart cfg queryHash now₃ s₃
          = .hit { s₃ with loading := false, error := none
                           lastQuery := queryHash
                           statistics := e.statistics } e.data) := by
  have hcap : captured = s.statistics := by
    unfold executeFilteringStart at hstart
    by_cases h1 : queryHash = s.lastQuery
    · simp [h1] at hstart
    · simp only [h1, if_false, hcache, if_true] at hstart
      cases hget : mapGet s.cache queryHash with
      | none => simp [hget] at hstart; exact hstart.2.symm
      | some cached =>
        simp only [hget] at hstart
        by_cases hfresh : now - cached.timestamp < cfg.cacheExpiry
        · simp [hfresh] at hstart
        · simp [hfresh] at hstart; exact hstart.2.symm
  subst hcap
  refine ⟨rfl, ?_, ?_, ?_⟩
  · simp only [executeFilteringResolve, hserver, if_true, hcache]
    simp [cacheWrite, mapGet_mapSet_self]
  · simp [executeFilteringResolve, hserver, hcache]
  · intro s₃ e now₃ hget hne hfresh
    simp [executeFilteringStart, hne, hcache, hget, hfresh]

/-- C10 witness. -/
theorem C10_cache_stores_stale_statistics_witness :
    executeFilteringStart ⟨true, 300000, 100, true⟩ "q" 0
        ⟨"", false, none, some 7, []⟩
      = .proceed ⟨"q", true, none, some 7, []⟩ (some 7)
    ∧ (mapGet (executeFilteringResolve ⟨true, 300000, 100, true⟩ []
          defaultFilters "q" (some 7) (.success [sampleRecord] 42) 1
          ⟨"q", true, none, some 7, []⟩).1.cache "q"
        = some ⟨[sampleRecord], 1, "q", some 7⟩
      ∧ (executeFilteringResolve ⟨true, 300000, 100, true⟩ []
          defaultFilters "q" (some 7) (.success [sampleRecord] 42) 1
          ⟨"q", true, none, some 7, []⟩).1.statistics = some 42) := by
  have h := C10_cache_stores_stale_statistics ⟨true, 300000, 100, true⟩ []
    defaultFilters "q" [sampleRecord] 42 0 1 ⟨"", false, none, some 7, []⟩
    ⟨"q", true, none, some 7, []⟩ (some 7) (by decide) rfl rfl
  exact ⟨by decide, h.2.1, h.2.2.1⟩

/-- Fixed configuration for the stale-fetch scenario. -/
def staleCfg : FilterConfig := ⟨true, 300000, 100, true⟩

/-- Initial hook state for the stale-fetch scenario. -/
def staleS0 : HookState := ⟨"", false, none, none, []⟩

/-- C3 counterexample: fetch A (fingerprint "A") starts, is superseded by
fetch B (fingerprint "B"), B resolves first (statistics 2, data
`[sampleRecord]`), then the *superseded* fetch A resolves (statistics 1).
`executeFiltering` re-checks nothing after its `await`: A's continuation
commits, so the published statistics after both resolve is A's value 1, not
B's value 2 — the late-arriving response is not discarded. -/
theorem C3_counterexample :
    executeFilteringStart staleCfg "A" 0 staleS0
      = .proceed ⟨"A", true, none, none, []⟩ none
    ∧ executeFilteringStart staleCfg "B" 1 ⟨"A", true, none, none, []⟩
      = .proceed ⟨"B", true, none, none, []⟩ none
    ∧ (executeFilteringResolve staleCfg [] defaultFilters "B" none
        (.success [sampleRecord] 2) 2 ⟨"B", true, none, none, []⟩).1
      = ⟨"B", false, none, some 2, [("B", ⟨[sampleRecord], 2, "B", none⟩)]⟩
    ∧ (executeFilteringResolve staleCfg [] defaultFilters "A" none
        (.success [] 1) 3
        ⟨"B", false, none, some 2, [("B", ⟨[sampleRecord], 2, "B", none⟩)]⟩).1.statistics
      = some 1
    ∧ ¬ (some (1 : Int) = some 2) := by
  refine ⟨by decide, by decide, by decide, by decide, by decide⟩

/-- C3 (amended): in the A-superseded-by-B interleaving the *data* read by
consumers does reflect B — reads go through the cache keyed by the current
fingerprint — but the *published statistics* after both resolve is the stale
fetch A's value: `executeFiltering` never checks, after its `await`, whether
its fingerprint is still the most recent one, so A's continuation overwrites
B's statistics (it also writes a cache entry for "A", which is harmless for
reads keyed by "B"). -/
theorem C3_stale_statistics_overwrite (cfg : FilterConfig)
    (hashA hashB : String) (dataA dataB forecasts : List ForecastRecord)
    (query : FilterQuery) (statsA statsB : Int) (t0 t1 t2 t3 tR : Int)
    (s0 : HookState)
    (hc : cfg.enableCache = true)
    (hs : cfg.enableServerSideFiltering = true)
    (hmax : 1 ≤ cfg.maxCacheSize)
    (hcache0 : s0.cache = [])
    (hA : ¬ hashA = s0.lastQuery)
    (hBA : ¬ hashB = hashA)
    (hfreshB : tR - t2 < cfg.cacheExpiry) :
    executeFilteringStart cfg hashA t0 s0
      = .proceed { s0 with loading := true, error := none
                           lastQuery := hashA } s0.statistics
    ∧ executeFilteringStart cfg hashB t1
        { s0 with loading := true, error := none, lastQuery := hashA }
      = .proceed { s0 with loading := true, error := none
                           lastQuery := hashB } s0.statistics
    ∧ ((executeFilteringResolve cfg forecasts query hashA s0.statistics
          (.success dataA statsA) t3
          (executeFilteringResolve cfg forecasts query hashB s0.statistics
            (.success dataB statsB) t2
            { s0 with loading := true, error := none
                      lastQuery := hashB }).1).1.statistics = some statsA
      ∧ getCachedOrFilteredData cfg hashB tR forecasts query
          (executeFilteringResolve cfg forecasts query hashA s0.statistics
            (.success dataA statsA) t3
            (executeFilteringResolve cfg forecasts query hashB s0.statistics
              (.success dataB statsB) t2
              { s0 with loading := true, error := none
                        lastQuery := hashB }).1).1 = dataB) := by
  have hSB : (executeFilteringResolve cfg forecasts query hashB
      s0.statistics (.success dataB statsB) t2
      { s0 with loading := true, error := none, lastQuery := hashB }).1
      = { s0 with loading := false, error := none, lastQuery := hashB
                  statistics := some statsB
                  cache := [(hashB, ⟨dataB, t2, hashB, s0.statistics⟩)] } := by
    simp [executeFilteringResolve, hs, hc, cacheWrite, hcache0, cleanCache,
      mapSet]
  have hSF : (executeFilteringResolve cfg forecasts query hashA
      s0.statistics (.success dataA statsA) t3
      { s0 with loading := false, error := none, lastQuery := hashB
                statistics := some statsB
                cache := [(hashB, ⟨dataB, t2, hashB, s0.statistics⟩)] }).1
      = { s0 with loading := false, error := none, lastQuery := hashB
                  statistics := some statsA
                  cache := [(hashB, ⟨dataB, t2, hashB, s0.statistics⟩),
                    (hashA, ⟨dataA, t3, hashA, s0.statistics⟩)] } := by
    have hclean : cleanCache cfg.maxCacheSize
        [(hashB, ⟨dataB, t2, hashB, s0.statistics⟩)]
        = [(hashB, ⟨dataB, t2, hashB, s0.statistics⟩)] := by
      unfold cleanCache
      rw [if_pos (by simpa using hmax)]
    simp [executeFilteringResolve, hs, hc, cacheWrite, hclean, mapSet, hBA]
  refine ⟨?_, ?_, ?_, ?_⟩
  · simp [executeFilteringStart, hA, hc, hcache0, mapGet]
  · simp [executeFilteringStart, hBA, hc, hcache0, mapGet]
  · rw [hSB, hSF]
  · rw [hSB, hSF]
    simp [getCachedOrFilteredData, mapGet, hfreshB]

/-- C3 witness. -/
theorem C3_stale_statistics_overwrite_witness :
    executeFilteringStart staleCfg "A" 0 staleS0
      = .proceed { staleS0 with loading := true, error := none
                                lastQuery := "A" } staleS0.statistics
    ∧ executeFilteringStart staleCfg "B" 1
        { staleS0 with loading := true, error := none, lastQuery := "A" }
      = .proceed { staleS0 with loading := true, error := none
                                lastQuery := "B" } staleS0.statistics
    ∧ ((executeFilteringResolve staleCfg [] defaultFilters "A"
          staleS0.statistics (.success [] 1) 3
          (executeFilteringResolve staleCfg [] defaultFilters "B"
            staleS0.statistics (.success [sampleRecord] 2) 2
            { staleS0 with loading := true, error := none
                           lastQuery := "B" }).1).1.statistics = some 1
      ∧ getCachedOrFilteredData staleCfg "B" 4 [] defaultFilters
          (executeFilteringResolve staleCfg [] defaultFilters "A"
            staleS0.statistics (.success [] 1) 3
            (executeFilteringResolve staleCfg [] defaultFilters "B"
              staleS0.statistics (.success [sampleRecord] 2) 2
              { staleS0 with loading := true, error := none
                             lastQuery := "B" }).1).1 = [sampleRecord]) :=
  C3_stale_statistics_overwrite staleCfg "A" "B" [] [sampleRecord] []
    defaultFilters 1 2 0 1 2 3 4 staleS0 rfl rfl (by decide) rfl
    (by decide) (by decide) (by decide)

/-! ## Performance Monitor

`usePerformanceMonitor` (src/hooks/usePerformanceMonitor.ts): the state the
filter-measurement span and alert list live in, `addAlert` (lines 141-158)
and `endFilterMeasure` (lines 92-108).  `cacheHitRate` is a percentage and
the times are `performance.now()` values; all are modelled as `Int` (the
fractional part plays no role in any claim). -/

structure PerformanceMetrics where
  renderTime : Int
  filterTime : Int
  queryTime : Int
  cacheHitRate : Int
  memoryUsage : Int
  totalItems : Int
  filteredItems : Int
deriving DecidableEq, Repr

/-- `keyof PerformanceMetrics`. -/
inductive MetricName where
  | renderTime
  | filterTime
  | queryTime
  | cacheHitRate
  | memoryUsage
  | totalItems
  | filteredItems
deriving DecidableEq, Repr

inductive AlertType where
  | warning
  | error
deriving DecidableEq, Repr

structure PerformanceAlert where
  type : AlertType
  message : String
  metric : MetricName
  value : Int
  threshold : Int
  timestamp : Int
deriving DecidableEq, Repr

structure Thresholds where
  renderTime : Int
  filterTime : Int
  queryTime : Int
  cacheHitRate : Int
  memoryUsage : Int
deriving DecidableEq, Repr

structure PerformanceConfig where
  enableMonitoring : Bool
  enableAlerts : Bool
  thresholds : Thresholds
  sampleSize : Nat
deriving DecidableEq, Repr

/-- The monitor state touched by the filter-measurement span:
`isMonitoring`, the `filterStartTime` ref (`0` is the sentinel for "no open
span"), the metrics snapshot and the alert list. -/
structure MonitorState where
  isMonitoring : Bool
  filterStartTime : Int
  metrics : PerformanceMetrics
  alerts : List PerformanceAlert
deriving DecidableEq, Repr

/-- `addAlert` (line 157): `setAlerts(prev => [...prev.slice(-9), alert])` —
keep the last nine alerts and append the new one. -/
def addAlert (alerts : List PerformanceAlert) (alert : PerformanceAlert) :
    List PerformanceAlert :=
  alerts.drop (alerts.length - 9) ++ [alert]

/-- `endFilterMeasure(totalItems, filteredItems)` (lines 92-108).  `now` is
`performance.now()` at the call; `tnow` is the `Date.now()` the appended
alert is stamped with. -/
def endFilterMeasure (cfg : PerformanceConfig) (now : Int)
    (totalItems filteredItems : Int) (tnow : Int) (s : MonitorState) :
    MonitorState :=
  if !s.isMonitoring || s.filterStartTime == 0 then s
  else
    let filterTime := now - s.filterStartTime
    let s1 := { s with
      metrics := { s.metrics with filterTime := filterTime
                                  totalItems := totalItems
                                  filteredItems := filteredItems }
      filterStartTime := 0 }
    if cfg.enableAlerts && decide (filterTime > cfg.thresholds.filterTime) then
      { s1 with alerts := (addAlert s1.alerts
          ⟨.warning, "Tempo di filtraggio elevato", .filterTime, filterTime,
            cfg.thresholds.filterTime, tnow⟩) }
    else s1

/-- C9: with monitoring on, an open filter span and alerts enabled, a
measured duration above the configured `filterTime` threshold appends
exactly one `warning` alert with metric `filterTime`, value the measured
duration and threshold the configured threshold; the alert list keeps at
most the last ten alerts (the nine retained plus the new one), dropping the
oldest beyond that cap. -/
theorem C9_alert_emission (cfg : PerformanceConfig)
    (now totalItems filteredItems tnow : Int) (s : MonitorState)
    (hmon : s.isMonitoring = true)
    (hopen : ¬ s.filterStartTime = 0)
    (halerts : cfg.enableAlerts = true)
    (hbreach : now - s.filterStartTime > cfg.thresholds.filterTime) :
    (endFilterMeasure cfg now totalItems filteredItems tnow s).alerts
      = s.alerts.drop (s.alerts.length - 9)
        ++ [⟨.warning, "Tempo di filtraggio elevato", .filterTime,
            now - s.filterStartTime, cfg.thresholds.filterTime, tnow⟩]
    ∧ (endFilterMeasure cfg now totalItems filteredItems tnow s).alerts.length
        = min s.alerts.length 9 + 1
    ∧ (endFilterMeasure cfg now totalItems filteredItems tnow s).alerts.length
        ≤ 10
    ∧ (endFilterMeasure cfg now totalItems filteredItems tnow
        s).metrics.filterTime = now - s.filterStartTime := by
  have hcond : (!s.isMonitoring || s.filterStartTime == 0) = false := by
    simp [hmon, hopen]
  have halert : (endFilterMeasure cfg now totalItems filteredItems tnow
      s).alerts
      = s.alerts.drop (s.alerts.length - 9)
        ++ [⟨.warning, "Tempo di filtraggio elevato", .filterTime,
            now - s.filterStartTime, cfg.thresholds.filterTime, tnow⟩] := by
    simp [endFilterMeasure, hcond, halerts, hbreach, addAlert]
  refine ⟨halert, ?_, ?_, ?_⟩
  · rw [halert]
    simp [List.length_drop]
    omega
  · rw [halert]
    simp [List.length_drop]
    omega
  · simp [endFilterMeasure, hcond, halerts, hbreach]

/-- C9 witness: eleven alerts are already present; the twelfth emission
keeps the last nine plus the new one. -/
theorem C9_alert_emission_witness :
    (endFilterMeasure ⟨true, true, ⟨100, 500, 1000, 70, 100⟩, 10⟩ 1000 50 10 7
        ⟨true, 100, ⟨0, 0, 0, 0, 0, 0, 0⟩,
          (List.range 11).map
            (fun i => ⟨.warning, "m", .renderTime, Int.ofNat i, 0, 0⟩)⟩).alerts
      = ((List.range 11).map
          (fun i => (⟨.warning, "m", .renderTime, Int.ofNat i, 0,
            0⟩ : PerformanceAlert))).drop 2
        ++ [⟨.warning, "Tempo di filtraggio elevato", .filterTime, 900, 500,
            7⟩]
    ∧ (endFilterMeasure ⟨true, true, ⟨100, 500, 1000, 70, 100⟩, 10⟩ 1000 50 10
        7 ⟨true, 100, ⟨0, 0, 0, 0, 0, 0, 0⟩,
          (List.range 11).map
            (fun i => ⟨.warning, "m", .renderTime, Int.ofNat i, 0,
              0⟩)⟩).alerts.length ≤ 10 := by
  have h := C9_alert_emission ⟨true, true, ⟨100, 500, 1000, 70, 100⟩, 10⟩
    1000 50 10 7
    ⟨true, 100, ⟨0, 0, 0, 0, 0, 0, 0⟩,
      (List.range 11).map
        (fun i => ⟨.warning, "m", .renderTime, Int.ofNat i, 0, 0⟩)⟩
    rfl (by decide) rfl (by decide)
  refine ⟨?_, h.2.2.1⟩
  have := h.1
  simpa using this

/-! ## Filter State Store

`updateFilters` from FilterContext.tsx (lines 57-64).  A
`Partial<FilterQuery>` is a record of optional fields: `none` models an
absent property, `some v` an explicitly supplied one. -/

structure FilterPatch where
  dateRange : Option (Option DateRange)
  businessUnitIds : Option (List Int)
  clientIds : Option (List Int)
  userIds : Option (List String)
  statuses : Option (List ForecastStatus)
  countries : Option (List String)
  budgetRange : Option (Option NumericRange)
  forecastRange : Option (Option NumericRange)
  declaredBudgetRange : Option (Option NumericRange)
  textSearch : Option String
  limit : Option Int
  offset : Option Int
  orderBy : Option String
  orderDirection : Option String
deriving DecidableEq, Repr

/-- The all-absent patch (`updateFilters({})`). -/
def emptyPatch : FilterPatch :=
  ⟨none, none, none, none, none, none, none, none, none, none, none, none,
    none, none⟩

/-- `updateFilters(newFilters)`:
`{...prev, ...newFilters, offset: newFilters.offset !== undefined ?
newFilters.offset : 0}`. -/
def updateFilters (prev : FilterQuery) (patch : FilterPatch) : FilterQuery :=
  { dateRange := patch.dateRange.getD prev.dateRange
    businessUnitIds := patch.businessUnitIds.getD prev.businessUnitIds
    clientIds := patch.clientIds.getD prev.clientIds
    userIds := patch.userIds.getD prev.userIds
    statuses := patch.statuses.getD prev.statuses
    countries := patch.countries.getD prev.countries
    budgetRange := patch.budgetRange.getD prev.budgetRange
    forecastRange := patch.forecastRange.getD prev.forecastRange
    declaredBudgetRange :=
      patch.declaredBudgetRange.getD prev.declaredBudgetRange
    textSearch := patch.textSearch.getD prev.textSearch
    limit := patch.limit.getD prev.limit
    offset := patch.offset.getD 0
    orderBy := patch.orderBy.getD prev.orderBy
    orderDirection := patch.orderDirection.getD prev.orderDirection }

/-- C5: `updateFilters` takes each supplied field's value and leaves every
unnamed field unchanged (`patch.f.getD prev.f`), except `offset`, which
defaults to `0` instead of the previous value whenever the patch does not
explicitly supply it; in particular `updateFilters({businessUnitIds: [1]})`
after `updateFilters({offset: 50})` yields `offset = 0`. -/
theorem C5_offset_reset (prev : FilterQuery) (patch : FilterPatch) :
    (updateFilters prev patch).offset = patch.offset.getD 0
    ∧ (updateFilters prev patch).dateRange
        = patch.dateRange.getD prev.dateRange
    ∧ (updateFilters prev patch).businessUnitIds
        = patch.businessUnitIds.getD prev.businessUnitIds
    ∧ (updateFilters prev patch).clientIds
        = patch.clientIds.getD prev.clientIds
    ∧ (updateFilters prev patch).userIds = patch.userIds.getD prev.userIds
    ∧ (updateFilters prev patch).statuses = patch.statuses.getD prev.statuses
    ∧ (updateFilters prev patch).countries
        = patch.countries.getD prev.countries
    ∧ (updateFilters prev patch).budgetRange
        = patch.budgetRange.getD prev.budgetRange
    ∧ (updateFilters prev patch).forecastRange
        = patch.forecastRange.getD prev.forecastRange
    ∧ (updateFilters prev patch).declaredBudgetRange
        = patch.declaredBudgetRange.getD prev.declaredBudgetRange
    ∧ (updateFilters prev patch).textSearch
        = patch.textSearch.getD prev.textSearch
    ∧ (updateFilters prev patch).limit = patch.limit.getD prev.limit
    ∧ (updateFilters prev patch).orderBy = patch.orderBy.getD prev.orderBy
    ∧ (updateFilters prev patch).orderDirection
        = patch.orderDirection.getD prev.orderDirection
    ∧ (updateFilters
        (updateFilters prev { emptyPatch with offset := some 50 })
        { emptyPatch with businessUnitIds := some [1] }).offset = 0 :=
  ⟨rfl, rfl, rfl, rfl, rfl, rfl, rfl, rfl, rfl, rfl, rfl, rfl, rfl, rfl, rfl⟩

/-! ## Server-side query path

`buildDynamicQuery` / `getAdvancedForecasts` (src/services/supabaseFilterApi.ts).
The SQL `where` clauses become a per-row predicate; the default
`order('last_modified', {ascending: false})` becomes a sort (the
orchestrator never supplies `orderBy`, so only the default ordering is
modelled); `range(start, end)` becomes drop/take.  The transformation of
rows into app-shaped `Forecast` objects preserves row identity (the `id`
column) and every claim in scope concerns *which* records are returned, so
the embedding returns the selected rows themselves; the two client-side
post-filters (countries, text search), which in the source run over the
transformed list but look each record up again in the raw rows by `id`, are
modelled with the same `find?`-by-`id` indirection. -/

structure AdvancedQueryParams where
  dateRange : Option DateRange
  businessUnitIds : List Int
  clientIds : List Int
  userIds : List String
  statuses : List ForecastStatus
  countries : List String
  budgetRange : Option NumericRange
  forecastRange : Option NumericRange
  declaredBudgetRange : Option NumericRange
  textSearch : String
  limit : Option Nat
  offset : Option Nat
deriving DecidableEq, Repr

/-- The row predicate of the SQL query built by `buildDynamicQuery`
(lines 39-154).  The date clause buckets by `(year, month)` from the
range's `startDate`/`endDate`; a `dateRange` without those fields, or a
numeric range with an undefined bound, produces an invalid PostgREST filter
(`eq.NaN` / `gte.undefinedined`), whose request matches no rows — modelled as
`false`.  A SQL comparison on a NULL column is not satisfied, so a missing
numeric column fails a range clause. -/
def buildDynamicQueryAccepts (params : AdvancedQueryParams)
    (r : ForecastRecord) : Bool :=
  (match params.dateRange with
   | some dr =>
     match dr.startDate, dr.endDate with
     | some sd, some ed =>
       if sd.year = ed.year then
         decide (r.year = sd.year) && decide (sd.month ≤ r.month) &&
           decide (r.month ≤ ed.month)
       else
         (decide (r.year = sd.year) && decide (sd.month ≤ r.month))
         || (decide (r.year = ed.year) && decide (r.month ≤ ed.month))
         || (decide (sd.year < r.year) && decide (r.year < ed.year))
     | _, _ => false
   | none => true)
  &&
  (params.businessUnitIds.isEmpty ||
    match r.business_unit_id with
    | some i => params.businessUnitIds.contains i
    | none => false)
  &&
  (params.clientIds.isEmpty ||
    match r.client_id with
    | some i => params.clientIds.contains i
    | none => false)
  &&
  (params.userIds.isEmpty ||
    match r.user_id with
    | some u => params.userIds.contains u
    | none => false)
  &&
  (params.statuses.isEmpty ||
    (params.statuses.map (fun status =>
      if status = ForecastStatus.Approved then "Approvato"
      else "Bozza")).contains (statusString r.status))
  &&
  (match params.budgetRange with
   | some rg =>
     match rg.min, rg.max, r.budget with
     | some mn, some mx, some b => decide (mn ≤ b) && decide (b ≤ mx)
     | _, _, _ => false
   | none => true)
  &&
  (match params.forecastRange with
   | some rg =>
     match rg.min, rg.max, r.forecast with
     | some mn, some mx, some b => decide (mn ≤ b) && decide (b ≤ mx)
     | _, _, _ => false
   | none => true)
  &&
  (match params.declaredBudgetRange with
   | some rg =>
     match rg.min, rg.max, r.declared_budget with
     | some mn, some mx, some b => decide (mn ≤ b) && decide (b ≤ mx)
     | _, _, _ => false
   | none => true)

/-- `getAdvancedForecasts(params)` over a database table `db` of forecast
rows (lines 159-238): execute the SQL query (predicate, default ordering,
`range` pagination), then apply the two client-side post-filters for
countries (`clients.paese`) and text search (client name, business-unit
name, user full name and the transformed status, joined with spaces). -/
def getAdvancedForecasts (params : AdvancedQueryParams)
    (db : List ForecastRecord) : List ForecastRecord :=
  let rows₀ := db.filter (fun r => buildDynamicQueryAccepts params r)
  let rows₁ := insertionSort
    (fun a b => decide (b.last_modified ≤ a.last_modified)) rows₀
  let rows := match params.limit with
    | some l => (rows₁.drop (params.offset.getD 0)).take l
    | none => rows₁
  let afterCountry :=
    if params.countries.isEmpty then rows
    else rows.filter (fun f =>
      match rows.find? (fun r2 => r2.id == f.id) with
      | some rd =>
        match rd.country with
        | some c => !c.isEmpty && params.countries.contains c
        | none => false
      | none => false)
  if !params.textSearch.isEmpty && !(jsTrim params.textSearch).isEmpty then
    let searchTerm := jsTrim (strLower params.textSearch)
    afterCountry.filter (fun f =>
      match rows.find? (fun r2 => r2.id == f.id) with
      | some rd =>
        let kept := ([rd.client_name, rd.business_unit_name, rd.user_name,
          some (statusString rd.status)].filterMap id).filter
            (fun s => !s.isEmpty)
        strContains (strLower (String.intercalate " " kept)) searchTerm
      | none => false)
  else afterCountry

/-- `options.pageSize || 1000` (line 170). -/
def pageLimit : Option Nat → Nat
  | some n => if n = 0 then 1000 else n
  | none => 1000

/-- The `AdvancedQueryParams` that `executeFiltering` builds from the
current query (lines 159-172): the filter fields verbatim,
`limit: options.pageSize || 1000`, `offset: 0` (and no `orderBy`). -/
def paramsOfQuery (q : FilterQuery) (pageSize : Option Nat) :
    AdvancedQueryParams :=
  { dateRange := q.dateRange
    businessUnitIds := q.businessUnitIds
    clientIds := q.clientIds
    userIds := q.userIds
    statuses := q.statuses
    countries := q.countries
    budgetRange := q.budgetRange
    forecastRange := q.forecastRange
    declaredBudgetRange := q.declaredBudgetRange
    textSearch := q.textSearch
    limit := some (pageLimit pageSize)
    offset := some 0 }


/-- The status string list comparison the SQL `in('status', …)` clause
performs is equivalent to direct membership of the two-valued enum. -/
theorem statusString_contains (sts : List ForecastStatus)
    (st : ForecastStatus) :
    (sts.map (fun status =>
      if status = ForecastStatus.Approved then "Approvato"
      else "Bozza")).contains (statusString st) = sts.contains st := by
  induction sts with
  | nil => rfl
  | cons h t ih =>
    simp only [List.map_cons, List.contains_cons, ih]
    cases st <;> cases h <;> simp [statusString]

/-- When the empty string is not among the requested countries, the server
post-filter's extra truthiness test on `clients.paese` changes nothing. -/
theorem countryClause_eq (cs : List String) (hcs : ¬ "" ∈ cs)
    (c? : Option String) :
    (match c? with
     | some c => !c.isEmpty && cs.contains c
     | none => false)
    = (match c? with
       | some c => cs.contains c
       | none => false) := by
  cases c? with
  | none => rfl
  | some c =>
    show (!c.isEmpty && cs.contains c) = cs.contains c
    by_cases hc : c = ""
    · subst hc
      have h0 : cs.contains "" = false := by
        rw [← Bool.not_eq_true]
        intro h
        exact hcs (List.elem_iff.mp h)
      rw [h0]
      simp
    · have h0 : c.isEmpty = false := by
        rw [← Bool.not_eq_true]
        intro h
        exact hc ((String.isEmpty_iff c).mp h)
      simp [h0]

/-- A numeric range with both bounds defined, or no range at all — the
shape under which the SQL `gte`/`lte` pair is well-formed. -/
def rangeFull : Option NumericRange → Prop
  | none => True
  | some rg => rg.min.isSome ∧ rg.max.isSome

theorem rangeFull_cases {rg? : Option NumericRange} (h : rangeFull rg?) :
    rg? = none ∨ ∃ mn mx : Int, rg? = some ⟨some mn, some mx⟩ := by
  cases hq : rg? with
  | none => exact Or.inl rfl
  | some rg =>
    right
    rw [hq] at h
    obtain ⟨mn, hmn⟩ := Option.isSome_iff_exists.mp h.1
    obtain ⟨mx, hmx⟩ := Option.isSome_iff_exists.mp h.2
    exact ⟨mn, mx, by rw [show rg = ⟨rg.min, rg.max⟩ from rfl, hmn, hmx]⟩

/-- Clause-by-clause agreement of the two interpreters on one record, for
queries without date range and text search, with full numeric ranges, on a
record whose numeric columns are present, when the empty string is not a
requested country.  The left side is the SQL predicate conjoined with the
server's country post-filter test; the right side is the client-side
evaluator. -/
theorem buildDynamicQuery_clause_eq (q : FilterQuery) (ps : Option Nat)
    (r : ForecastRecord)
    (hdr : q.dateRange = none) (hts : q.textSearch = "")
    (hbr : rangeFull q.budgetRange) (hfr : rangeFull q.forecastRange)
    (hdbr : rangeFull q.declaredBudgetRange)
    (hb : r.budget.isSome) (hf : r.forecast.isSome)
    (hd : r.declared_budget.isSome)
    (hcs : ¬ "" ∈ q.countries) :
    (buildDynamicQueryAccepts (paramsOfQuery q ps) r
      && (q.countries.isEmpty ||
          match r.country with
          | some c => !c.isEmpty && q.countries.contains c
          | none => false))
    = acceptsRecord q r := by
  obtain ⟨b, hbv⟩ := Option.isSome_iff_exists.mp hb
  obtain ⟨f, hfv⟩ := Option.isSome_iff_exists.mp hf
  obtain ⟨d, hdv⟩ := Option.isSome_iff_exists.mp hd
  have hcc := countryClause_eq q.countries hcs r.country
  have hsc := statusString_contains q.statuses r.status
  rcases rangeFull_cases hbr with hq1 | ⟨mn1, mx1, hq1⟩ <;>
    rcases rangeFull_cases hfr with hq2 | ⟨mn2, mx2, hq2⟩ <;>
      rcases rangeFull_cases hdbr with hq3 | ⟨mn3, mx3, hq3⟩ <;>
  · simp only [buildDynamicQueryAccepts, acceptsRecord, paramsOfQuery, hdr,
      hts, hq1, hq2, hq3, hbv, hfv, hdv, hcc, hsc, Option.getD_some,
      Option.any_some]
    simp only [show ("" : String).isEmpty = true from rfl, Bool.not_true,
      Bool.false_and, Bool.and_true, Bool.true_and, if_false,
      Bool.and_false, Bool.false_eq_true, ← decide_not, not_lt,
      decide_eq_decide]
    try simp [Bool.and_assoc, Bool.and_comm, Bool.and_left_comm]

/-- `Array.prototype.find` by `id` returns the record itself when ids are
unique in the underlying table. -/
theorem findById_self {db sub : List ForecastRecord} {r : ForecastRecord}
    (hids : (db.map ForecastRecord.id).Nodup)
    (hsub : ∀ x ∈ sub, x ∈ db) (hr : r ∈ sub) :
    sub.find? (fun r2 => r2.id == r.id) = some r := by
  cases hfind : sub.find? (fun r2 => r2.id == r.id) with
  | none =>
    exact absurd (by simp : ((fun r2 => r2.id == r.id) r) = true)
      (List.find?_eq_none.mp hfind r hr)
  | some x =>
    have hpx := List.find?_some hfind
    have hxmem : x ∈ sub := List.mem_of_find?_eq_some hfind
    have hx : x = r := List.inj_on_of_nodup_map hids (hsub x hxmem)
      (hsub r hr) (by simpa using hpx)
    rw [hx]

/-- A record whose only searchable text is its `description`. -/
def descOnlyRecord : ForecastRecord :=
  { sampleRecord with client_name := none, business_unit_name := none,
                      user_name := none }

/-- A query that only sets a text search term. -/
def descSearchQuery : FilterQuery :=
  { defaultFilters with textSearch := "alpha" }

/-- C1 counterexample: the two interpreters of the same plan disagree on the
text-search clause because they search different field lists.  The
client-side evaluator searches `description`, `client_name`,
`business_unit_name` and `user_name` and accepts this record via its
description; the server-side path searches client name, business-unit name,
user full name and the status string — not the description — and returns
the empty set for the same plan and the same one-record collection. -/
theorem C1_counterexample :
    filterForecastsClientSide [descOnlyRecord] descSearchQuery
      = [descOnlyRecord]
    ∧ getAdvancedForecasts (paramsOfQuery descSearchQuery (some 50))
        [descOnlyRecord] = [] := by
  exact ⟨by decide, by decide⟩

/-- C1 (amended): the two interpreters agree — membership in the
server-side result coincides with acceptance by the client-side evaluator
for every record of the collection — provided the clauses on which they
genuinely differ are switched off or well-formed: no date range (the client
tests point containment of `created_at`, the server month-buckets
`(year, month)`), no text search (different field lists), numeric ranges
with both bounds (the SQL pair `gte`/`lte` is otherwise invalid) over
records with present numeric columns (SQL NULL comparisons fail where the
evaluator substitutes 0), the empty string not a requested country (the
server additionally requires `clients.paese` truthy), unique record ids
(the post-filters look records up by `id`), and a collection within the
page limit (the server truncates at `limit`). -/
theorem C1_evaluator_server_equivalence (q : FilterQuery) (ps : Option Nat)
    (db : List ForecastRecord)
    (hdr : q.dateRange = none) (hts : q.textSearch = "")
    (hbr : rangeFull q.budgetRange) (hfr : rangeFull q.forecastRange)
    (hdbr : rangeFull q.declaredBudgetRange)
    (hnum : ∀ x ∈ db, x.budget.isSome ∧ x.forecast.isSome
      ∧ x.declared_budget.isSome)
    (hcs : ¬ "" ∈ q.countries)
    (hids : (db.map ForecastRecord.id).Nodup)
    (hlen : db.length ≤ pageLimit ps) :
    ∀ r ∈ db, (r ∈ getAdvancedForecasts (paramsOfQuery q ps) db
      ↔ acceptsRecord q r = true) := by
  intro r hr
  simp only [getAdvancedForecasts]
  simp only [show (paramsOfQuery q ps).textSearch = q.textSearch from rfl,
    show (paramsOfQuery q ps).countries = q.countries from rfl,
    show (paramsOfQuery q ps).limit = some (pageLimit ps) from rfl,
    show (paramsOfQuery q ps).offset = some 0 from rfl,
    hts, show ("" : String).isEmpty = true from rfl, Bool.not_true,
    Bool.false_and, Bool.false_eq_true, if_false, Option.getD_some,
    List.drop_zero]
  set sorted := EsaForecast.insertionSort
    (fun a b => decide (b.last_modified ≤ a.last_modified))
    (db.filter (fun x => buildDynamicQueryAccepts (paramsOfQuery q ps) x))
    with hsorted
  have hlen2 : sorted.length ≤ pageLimit ps := by
    rw [hsorted, (insertionSort_perm _ _).length_eq]
    exact le_trans (List.length_filter_le _ _) hlen
  simp only [List.take_of_length_le hlen2]
  have hmem : ∀ x, x ∈ sorted ↔ x ∈ db
      ∧ buildDynamicQueryAccepts (paramsOfQuery q ps) x = true := by
    intro x
    rw [hsorted, EsaForecast.mem_insertionSort, List.mem_filter]
  have hsub : ∀ x ∈ sorted, x ∈ db := fun x hx => ((hmem x).mp hx).1
  have hclause := buildDynamicQuery_clause_eq q ps r hdr hts hbr hfr hdbr
    (hnum r hr).1 (hnum r hr).2.1 (hnum r hr).2.2 hcs
  by_cases hemp : q.countries.isEmpty = true
  · rw [if_pos hemp]
    rw [hmem r, ← hclause]
    simp [hemp, hr]
  · rw [if_neg hemp]
    rw [List.mem_filter]
    constructor
    · rintro ⟨hrs, hpred⟩
      have hfind := findById_self hids hsub hrs
      rw [hfind] at hpred
      have hsql : buildDynamicQueryAccepts (paramsOfQuery q ps) r = true :=
        ((hmem r).mp hrs).2
      rw [← hclause]
      simp only [Bool.and_eq_true, Bool.or_eq_true]
      exact ⟨hsql, Or.inr hpred⟩
    · intro hacc
      rw [← hclause] at hacc
      simp only [Bool.and_eq_true, Bool.or_eq_true] at hacc
      obtain ⟨hsql, hcountry⟩ := hacc
      rcases hcountry with hc | hc
      · exact absurd hc hemp
      · have hrs : r ∈ sorted := (hmem r).mpr ⟨hr, hsql⟩
        refine ⟨hrs, ?_⟩
        rw [findById_self hids hsub hrs]
        exact hc

/-- A second record, in a different business unit. -/
def sampleRecord2 : ForecastRecord :=
  { sampleRecord with id := 2, business_unit_id := some 2,
                      budget := some 5000 }

/-- A concrete query exercising the id, country and budget-range clauses. -/
def c1WitnessQuery : FilterQuery :=
  { defaultFilters with businessUnitIds := [1], countries := ["IT"],
                        budgetRange := some ⟨some 0, some 1000⟩ }

/-- C1 witness. -/
theorem C1_evaluator_server_equivalence_witness :
    (sampleRecord ∈ getAdvancedForecasts (paramsOfQuery c1WitnessQuery none)
        [sampleRecord, sampleRecord2]
      ↔ acceptsRecord c1WitnessQuery sampleRecord = true)
    ∧ (sampleRecord2 ∈ getAdvancedForecasts
        (paramsOfQuery c1WitnessQuery none) [sampleRecord, sampleRecord2]
      ↔ acceptsRecord c1WitnessQuery sampleRecord2 = true) :=
  ⟨C1_evaluator_server_equivalence c1WitnessQuery none
      [sampleRecord, sampleRecord2] rfl rfl ⟨rfl, rfl⟩ trivial trivial
      (by decide) (by decide) (by decide) (by decide)
      sampleRecord (by decide),
    C1_evaluator_server_equivalence c1WitnessQuery none
      [sampleRecord, sampleRecord2] rfl rfl ⟨rfl, rfl⟩ trivial trivial
      (by decide) (by decide) (by decide) (by decide)
      sampleRecord2 (by decide)⟩

end EsaForecast
